import Mathlib

set_option maxRecDepth 100000

/-!
Verification of the command gateway in `src-tauri/src/main.rs`: the three
Tauri commands `start_simulation`, `stop_simulation` and `get_world_state`,
and the fallback policy of `get_world_state`.

The Rust code is shallowly embedded:
* process standard output is a list of byte values (`List Nat`, each < 256 in
  any real run);
* Rust `String` is Lean `String`; `String::from_utf8` is modelled by a strict
  UTF-8 decoder with the exact acceptance rules of the Rust standard library;
* `Result<T, E>` whose error payload is inspected is `Except`; `io::Result`
  whose error payload the code discards (`Err(_)`) is a two-constructor
  inductive;
* the `.unwrap()` calls on the current-directory lookup are modelled by an
  explicit `panicked` outcome.
-/

/-! ## UTF-8, as in Rust's `String::from_utf8` -/

/-- UTF-8 encoding of a single Unicode code point, as a list of byte values. -/
def utf8EncodeNat (n : Nat) : List Nat :=
  if n < 0x80 then [n]
  else if n < 0x800 then [0xC0 + n / 64, 0x80 + n % 64]
  else if n < 0x10000 then [0xE0 + n / 4096, 0x80 + (n / 64) % 64, 0x80 + n % 64]
  else [0xF0 + n / 0x40000, 0x80 + (n / 4096) % 64, 0x80 + (n / 64) % 64, 0x80 + n % 64]

/-- UTF-8 encoding of a list of characters. -/
def utf8EncodeChars (cs : List Char) : List Nat :=
  cs.flatMap (fun c => utf8EncodeNat c.toNat)

/-- Continuation of a two-byte UTF-8 sequence led by `b0` (`0xC2`–`0xDF`;
leading bytes `0xC0`/`0xC1` are excluded by the minimal-code-point check).
`k` decodes the bytes after the sequence. -/
def decTail2 (b0 : Nat) (k : List Nat → Option (List Char)) : List Nat → Option (List Char)
  | b1 :: bs2 =>
    if (0x80 ≤ b1 ∧ b1 < 0xC0) ∧ 0x80 ≤ (b0 - 0xC0) * 64 + (b1 - 0x80) then
      (k bs2).map (fun cs => Char.ofNat ((b0 - 0xC0) * 64 + (b1 - 0x80)) :: cs)
    else none
  | [] => none

/-- Continuation of a three-byte UTF-8 sequence led by `b0` (`0xE0`–`0xEF`):
checks both continuation bytes, the minimal code point `0x800` (rejecting
overlong forms) and the surrogate gap `0xD800`–`0xDFFF`. -/
def decTail3 (b0 : Nat) (k : List Nat → Option (List Char)) : List Nat → Option (List Char)
  | b1 :: b2 :: bs3 =>
    if (0x80 ≤ b1 ∧ b1 < 0xC0) ∧ (0x80 ≤ b2 ∧ b2 < 0xC0) ∧
        0x800 ≤ (b0 - 0xE0) * 4096 + (b1 - 0x80) * 64 + (b2 - 0x80) ∧
        ((b0 - 0xE0) * 4096 + (b1 - 0x80) * 64 + (b2 - 0x80) < 0xD800 ∨
          0xE000 ≤ (b0 - 0xE0) * 4096 + (b1 - 0x80) * 64 + (b2 - 0x80)) then
      (k bs3).map (fun cs =>
        Char.ofNat ((b0 - 0xE0) * 4096 + (b1 - 0x80) * 64 + (b2 - 0x80)) :: cs)
    else none
  | _ => none

/-- Continuation of a four-byte UTF-8 sequence led by `b0` (`0xF0`–`0xF4`;
larger leading bytes fail the `< 0x110000` bound): checks the three
continuation bytes, the minimal code point `0x10000` and the Unicode upper
bound. -/
def decTail4 (b0 : Nat) (k : List Nat → Option (List Char)) : List Nat → Option (List Char)
  | b1 :: b2 :: b3 :: bs4 =>
    if (0x80 ≤ b1 ∧ b1 < 0xC0) ∧ (0x80 ≤ b2 ∧ b2 < 0xC0) ∧ (0x80 ≤ b3 ∧ b3 < 0xC0) ∧
        0x10000 ≤ (b0 - 0xF0) * 0x40000 + (b1 - 0x80) * 4096 +
          (b2 - 0x80) * 64 + (b3 - 0x80) ∧
        (b0 - 0xF0) * 0x40000 + (b1 - 0x80) * 4096 +
          (b2 - 0x80) * 64 + (b3 - 0x80) < 0x110000 then
      (k bs4).map (fun cs =>
        Char.ofNat ((b0 - 0xF0) * 0x40000 + (b1 - 0x80) * 4096 +
          (b2 - 0x80) * 64 + (b3 - 0x80)) :: cs)
    else none
  | _ => none

/-- Fuelled strict UTF-8 decoding of a byte list, with the exact acceptance
rules of Rust's `String::from_utf8`: continuation bytes are `0x80`–`0xBF`,
overlong encodings are rejected, surrogates `0xD800`–`0xDFFF` and code points
above `0x10FFFF` are rejected, and anything else ill-formed yields `none`.
One unit of fuel is spent per decoded character, so fuel equal to the byte
count always suffices. -/
def utf8DecodeF : Nat → List Nat → Option (List Char)
  | _, [] => some []
  | 0, _ :: _ => none
  | fuel + 1, b0 :: bs =>
    if b0 < 0x80 then (utf8DecodeF fuel bs).map (fun cs => Char.ofNat b0 :: cs)
    else if b0 < 0xC0 then none
    else if b0 < 0xE0 then decTail2 b0 (utf8DecodeF fuel) bs
    else if b0 < 0xF0 then decTail3 b0 (utf8DecodeF fuel) bs
    else decTail4 b0 (utf8DecodeF fuel) bs

/-- Strict UTF-8 decode of a whole byte list; `none` exactly on input that
Rust's `String::from_utf8` rejects. -/
def utf8Decode (bs : List Nat) : Option (List Char) :=
  utf8DecodeF bs.length bs

theorem utf8DecodeF_nil (fuel : Nat) : utf8DecodeF fuel [] = some [] := by
  cases fuel <;> rfl

theorem utf8DecodeF_cons (fuel b0 : Nat) (bs : List Nat) :
    utf8DecodeF (fuel + 1) (b0 :: bs) =
    (if b0 < 0x80 then (utf8DecodeF fuel bs).map (fun cs => Char.ofNat b0 :: cs)
    else if b0 < 0xC0 then none
    else if b0 < 0xE0 then decTail2 b0 (utf8DecodeF fuel) bs
    else if b0 < 0xF0 then decTail3 b0 (utf8DecodeF fuel) bs
    else decTail4 b0 (utf8DecodeF fuel) bs) := rfl

theorem char_toNat_ofNat (n : Nat) (h : n.isValidChar) : (Char.ofNat n).toNat = n := by
  simp only [Char.ofNat, h, dif_pos, Char.toNat, Char.ofNatAux]
  simp [UInt32.toNat, BitVec.toNat_ofNatLt]

example : utf8Decode [104, 105] = some (String.data "hi") := by decide
example : utf8Decode [0xE4, 0xB8, 0xAD] = some (String.data "中") := by decide
example : utf8Decode [0xC0, 0x80] = none := by decide
example : utf8Decode [0xE0, 0x80, 0x80] = none := by decide
example : utf8Decode [0xED, 0xA0, 0x80] = none := by decide
example : utf8Decode [0xFF] = none := by decide
example : utf8Decode [0xF0, 0x9F, 0x98, 0x80] = some (String.data "😀") := by decide

/-- Decoding is a right inverse of encoding: any byte list accepted by the
decoder re-encodes to the identical byte list. -/
theorem utf8DecodeF_encode : ∀ (fuel : Nat) (bs : List Nat) (cs : List Char),
    utf8DecodeF fuel bs = some cs → utf8EncodeChars cs = bs := by
  intro fuel
  induction fuel with
  | zero =>
    intro bs cs h
    match bs with
    | [] =>
      rw [utf8DecodeF_nil] at h
      obtain rfl := (Option.some.inj h).symm
      rfl
    | b :: bs => exact Option.noConfusion h
  | succ fuel ih =>
    intro bs cs h
    match bs with
    | [] =>
      rw [utf8DecodeF_nil] at h
      obtain rfl := (Option.some.inj h).symm
      rfl
    | b0 :: bs' =>
      rw [utf8DecodeF_cons] at h
      split_ifs at h with h1 h2 h3 h4
      · -- one-byte (ASCII) sequence
        rw [Option.map_eq_some'] at h
        obtain ⟨cs', hrec, hcs⟩ := h
        subst hcs
        have hval : Nat.isValidChar b0 := Or.inl (by omega)
        simp only [utf8EncodeChars, List.flatMap_cons]
        rw [char_toNat_ofNat b0 hval]
        have hrest := ih bs' cs' hrec
        simp only [utf8EncodeChars] at hrest
        rw [hrest]
        simp only [utf8EncodeNat, if_pos h1]
        rfl
      · -- two-byte sequence
        rcases bs' with _ | ⟨b1, bs2⟩
        · simp [decTail2] at h
        simp only [decTail2] at h
        split_ifs at h with hcond
        rw [Option.map_eq_some'] at h
        obtain ⟨cs', hrec, hcs⟩ := h
        subst hcs
        have hval : Nat.isValidChar ((b0 - 0xC0) * 64 + (b1 - 0x80)) := Or.inl (by omega)
        simp only [utf8EncodeChars, List.flatMap_cons]
        rw [char_toNat_ofNat _ hval]
        have hrest := ih bs2 cs' hrec
        simp only [utf8EncodeChars] at hrest
        rw [hrest]
        simp only [utf8EncodeNat, if_neg (by omega : ¬(b0 - 0xC0) * 64 + (b1 - 0x80) < 0x80),
          if_pos (by omega : (b0 - 0xC0) * 64 + (b1 - 0x80) < 0x800)]
        simp only [List.cons_append, List.nil_append, List.cons.injEq]
        exact ⟨by omega, by omega, trivial⟩
      · -- three-byte sequence
        rcases bs' with _ | ⟨b1, _ | ⟨b2, bs3⟩⟩
        · simp [decTail3] at h
        · simp [decTail3] at h
        simp only [decTail3] at h
        split_ifs at h with hcond
        rw [Option.map_eq_some'] at h
        obtain ⟨cs', hrec, hcs⟩ := h
        subst hcs
        have hval : Nat.isValidChar ((b0 - 0xE0) * 4096 + (b1 - 0x80) * 64 + (b2 - 0x80)) := by
          rcases hcond with ⟨hb1, hb2, hlo, hs | hs⟩
          · exact Or.inl hs
          · exact Or.inr ⟨by omega, by omega⟩
        simp only [utf8EncodeChars, List.flatMap_cons]
        rw [char_toNat_ofNat _ hval]
        have hrest := ih bs3 cs' hrec
        simp only [utf8EncodeChars] at hrest
        rw [hrest]
        simp only [utf8EncodeNat,
          if_neg (by omega : ¬(b0 - 0xE0) * 4096 + (b1 - 0x80) * 64 + (b2 - 0x80) < 0x80),
          if_neg (by omega : ¬(b0 - 0xE0) * 4096 + (b1 - 0x80) * 64 + (b2 - 0x80) < 0x800),
          if_pos (by omega : (b0 - 0xE0) * 4096 + (b1 - 0x80) * 64 + (b2 - 0x80) < 0x10000)]
        simp only [List.cons_append, List.nil_append, List.cons.injEq]
        exact ⟨by omega, by omega, by omega, trivial⟩
      · -- four-byte sequence
        rcases bs' with _ | ⟨b1, _ | ⟨b2, _ | ⟨b3, bs4⟩⟩⟩
        · simp [decTail4] at h
        · simp [decTail4] at h
        · simp [decTail4] at h
        simp only [decTail4] at h
        split_ifs at h with hcond
        rw [Option.map_eq_some'] at h
        obtain ⟨cs', hrec, hcs⟩ := h
        subst hcs
        have hval : Nat.isValidChar
            ((b0 - 0xF0) * 0x40000 + (b1 - 0x80) * 4096 + (b2 - 0x80) * 64 + (b3 - 0x80)) :=
          Or.inr ⟨by omega, by omega⟩
        simp only [utf8EncodeChars, List.flatMap_cons]
        rw [char_toNat_ofNat _ hval]
        have hrest := ih bs4 cs' hrec
        simp only [utf8EncodeChars] at hrest
        rw [hrest]
        simp only [utf8EncodeNat,
          if_neg (by omega : ¬(b0 - 0xF0) * 0x40000 + (b1 - 0x80) * 4096 +
            (b2 - 0x80) * 64 + (b3 - 0x80) < 0x80),
          if_neg (by omega : ¬(b0 - 0xF0) * 0x40000 + (b1 - 0x80) * 4096 +
            (b2 - 0x80) * 64 + (b3 - 0x80) < 0x800),
          if_neg (by omega : ¬(b0 - 0xF0) * 0x40000 + (b1 - 0x80) * 4096 +
            (b2 - 0x80) * 64 + (b3 - 0x80) < 0x10000)]
        simp only [List.cons_append, List.nil_append, List.cons.injEq]
        exact ⟨by omega, by omega, by omega, by omega, trivial⟩

/-- `utf8Decode` is a right inverse of UTF-8 encoding. -/
theorem utf8Decode_encode (bs : List Nat) (cs : List Char)
    (h : utf8Decode bs = some cs) : utf8EncodeChars cs = bs :=
  utf8DecodeF_encode bs.length bs cs h

theorem utf8EncodeNat_length_pos (n : Nat) : 1 ≤ (utf8EncodeNat n).length := by
  simp only [utf8EncodeNat]
  split_ifs <;> simp

theorem length_le_utf8EncodeChars (cs : List Char) :
    cs.length ≤ (utf8EncodeChars cs).length := by
  induction cs with
  | nil => simp [utf8EncodeChars]
  | cons c cs ih =>
    simp only [utf8EncodeChars, List.flatMap_cons, List.length_append, List.length_cons]
    have := utf8EncodeNat_length_pos c.toNat
    simp only [utf8EncodeChars] at ih
    omega

/-- Decoding is also a left inverse of encoding (given enough fuel): the
decoder accepts every well-formed encoding and recovers the characters. -/
theorem utf8DecodeF_of_encode : ∀ (fuel : Nat) (cs : List Char), cs.length ≤ fuel →
    utf8DecodeF fuel (utf8EncodeChars cs) = some cs := by
  intro fuel
  induction fuel with
  | zero =>
    intro cs h
    match cs with
    | [] => rw [show utf8EncodeChars [] = [] from rfl, utf8DecodeF_nil]
    | c :: cs => exact absurd h (by simp)
  | succ fuel ih =>
    intro cs h
    match cs with
    | [] => rw [show utf8EncodeChars [] = [] from rfl, utf8DecodeF_nil]
    | c :: cs' =>
      have hv : Nat.isValidChar c.toNat := c.valid
      have hlen : cs'.length ≤ fuel := by
        simp only [List.length_cons] at h
        omega
      have hrec := ih cs' hlen
      simp only [utf8EncodeChars, List.flatMap_cons]
      simp only [utf8EncodeChars] at hrec
      by_cases hc1 : c.toNat < 0x80
      · rw [show utf8EncodeNat c.toNat = [c.toNat] from by
          simp only [utf8EncodeNat, if_pos hc1]]
        simp only [List.cons_append, List.nil_append]
        rw [utf8DecodeF_cons, if_pos hc1, hrec]
        simp [Char.ofNat_toNat]
      · by_cases hc2 : c.toNat < 0x800
        · rw [show utf8EncodeNat c.toNat = [0xC0 + c.toNat / 64, 0x80 + c.toNat % 64] from by
            simp only [utf8EncodeNat, if_neg hc1, if_pos hc2]]
          simp only [List.cons_append, List.nil_append]
          rw [utf8DecodeF_cons, if_neg (by omega), if_neg (by omega), if_pos (by omega)]
          simp only [decTail2]
          rw [if_pos (by omega), hrec,
            show (0xC0 + c.toNat / 64 - 0xC0) * 64 + (0x80 + c.toNat % 64 - 0x80) = c.toNat
              from by omega]
          simp [Char.ofNat_toNat]
        · by_cases hc3 : c.toNat < 0x10000
          · rw [show utf8EncodeNat c.toNat =
                [0xE0 + c.toNat / 4096, 0x80 + (c.toNat / 64) % 64, 0x80 + c.toNat % 64] from by
              simp only [utf8EncodeNat, if_neg hc1, if_neg hc2, if_pos hc3]]
            simp only [List.cons_append, List.nil_append]
            rw [utf8DecodeF_cons, if_neg (by omega), if_neg (by omega), if_neg (by omega),
              if_pos (by omega)]
            simp only [decTail3]
            rw [if_pos (by rcases hv with hvv | ⟨hva, hvb⟩ <;> omega), hrec,
              show (0xE0 + c.toNat / 4096 - 0xE0) * 4096 + (0x80 + (c.toNat / 64) % 64 - 0x80) * 64
                  + (0x80 + c.toNat % 64 - 0x80) = c.toNat from by omega]
            simp [Char.ofNat_toNat]
          · rw [show utf8EncodeNat c.toNat =
                [0xF0 + c.toNat / 0x40000, 0x80 + (c.toNat / 4096) % 64,
                  0x80 + (c.toNat / 64) % 64, 0x80 + c.toNat % 64] from by
              simp only [utf8EncodeNat, if_neg hc1, if_neg hc2, if_neg hc3]]
            simp only [List.cons_append, List.nil_append]
            rw [utf8DecodeF_cons, if_neg (by omega), if_neg (by omega), if_neg (by omega),
              if_neg (by omega)]
            simp only [decTail4]
            rw [if_pos (by rcases hv with hvv | ⟨hva, hvb⟩ <;> omega), hrec,
              show (0xF0 + c.toNat / 0x40000 - 0xF0) * 0x40000
                  + (0x80 + (c.toNat / 4096) % 64 - 0x80) * 4096
                  + (0x80 + (c.toNat / 64) % 64 - 0x80) * 64
                  + (0x80 + c.toNat % 64 - 0x80) = c.toNat from by omega]
            simp [Char.ofNat_toNat]

/-- `utf8Decode` accepts every well-formed UTF-8 encoding. -/
theorem utf8Decode_of_encode (cs : List Char) :
    utf8Decode (utf8EncodeChars cs) = some cs :=
  utf8DecodeF_of_encode (utf8EncodeChars cs).length cs (length_le_utf8EncodeChars cs)

/-! ## Rust `str::trim` -/

/-- Rust's `char::is_whitespace`: the Unicode `White_Space` property. -/
def isRustWhitespace (c : Char) : Bool :=
  [9, 10, 11, 12, 13, 32, 133, 160, 5760, 8192, 8193, 8194, 8195, 8196, 8197, 8198,
    8199, 8200, 8201, 8202, 8232, 8233, 8239, 8287, 12288].contains c.toNat

/-- Rust's `str::trim`: remove leading and trailing `White_Space` characters. -/
def rustTrim (s : String) : String :=
  String.mk (((s.data.dropWhile isRustWhitespace).reverse.dropWhile isRustWhitespace).reverse)

example : rustTrim "  hi \n" = "hi" := by decide
example : rustTrim " \t\n " = "" := by decide
example : rustTrim "" = "" := by decide

/-! ## The command gateway of `src-tauri/src/main.rs` -/

/-- `std::process::Output` (`main.rs` line 33: the value inside
`Ok(result)`). Standard error is captured but never read by the gateway. -/
structure Output where
  status : Int
  stdout : List Nat
  stderr : List Nat

/-- `std::io::Result<T>` as consumed by this code: the `Err` payload is
discarded by the `Err(_)` pattern (`main.rs` line 55), so it carries no
data here. -/
inductive IoResult (α : Type) where
  | ok (val : α)
  | err

/-- The string literal `"{}"` produced by `unwrap_or_else(|_| "{}".to_string())`
in `main.rs` line 38. -/
def json_empty_obj : String := "\x7b\x7d"

/-- The `mock_data` raw-string literal of the `Ok`-but-empty-output branch,
`main.rs` lines 44–53, byte for byte (20-space indentation on the field
lines, 24 on the NPC lines). -/
def mock_data_empty : String := "\x7b\n                    \"currentDay\": 1,\n                    \"currentHour\": 12,\n                    \"npcs\": [\n                        \x7b\"name\": \"Marcus\", \"needFood\": 45, \"needSafety\": 80\x7d,\n                        \x7b\"name\": \"Sarah\", \"needFood\": 90, \"needSafety\": 95\x7d,\n                        \x7b\"name\": \"Emma\", \"needFood\": 70, \"needSafety\": 75\x7d\n                    ]\n                \x7d"

/-- The `mock_data` raw-string literal of the `Err` (launch-failure) branch,
`main.rs` lines 57–66, byte for byte (16-space indentation on the field
lines, 20 on the NPC lines). -/
def mock_data_err : String := "\x7b\n                \"currentDay\": 1,\n                \"currentHour\": 12,\n                \"npcs\": [\n                    \x7b\"name\": \"Marcus\", \"needFood\": 45, \"needSafety\": 80\x7d,\n                    \x7b\"name\": \"Sarah\", \"needFood\": 90, \"needSafety\": 95\x7d,\n                    \x7b\"name\": \"Emma\", \"needFood\": 70, \"needSafety\": 75\x7d\n                ]\n            \x7d"

/-- The fallback payload exactly as displayed in §6 of the specification
(two-space indentation, aligned columns). Transcribed from the spec's words,
for comparison with the literals the code actually returns. -/
def spec6_fallback : String := "\x7b\n  \"currentDay\": 1,\n  \"currentHour\": 12,\n  \"npcs\": [\n    \x7b\"name\": \"Marcus\",  \"needFood\": 45, \"needSafety\": 80\x7d,\n    \x7b\"name\": \"Sarah\",   \"needFood\": 90, \"needSafety\": 95\x7d,\n    \x7b\"name\": \"Emma\",    \"needFood\": 70, \"needSafety\": 75\x7d\n  ]\n\x7d"

/-- `String::from_utf8` on the collected stdout bytes: `some` of the decoded
string on well-formed UTF-8, `none` otherwise (the `FromUtf8Error` payload is
unused by the code). -/
def string_from_utf8 (bs : List Nat) : Option String :=
  (utf8Decode bs).map String.mk

/-- `get_world_state` (`main.rs` lines 27–70), given the result of the
`Command::output()` call. `IoResult.err` is the launch-failure branch. The
body is the `match output` expression: on `Ok(result)`, decode stdout with
the `"{}"` fallback, return it if its trim is non-empty, else return the
mock-data literal; on `Err(_)`, return the other mock-data literal. -/
def get_world_state (output : IoResult Output) : Except String String :=
  match output with
  | .ok result =>
    let stdout := (string_from_utf8 result.stdout).getD json_empty_obj
    if !(rustTrim stdout).isEmpty then Except.ok stdout
    else Except.ok mock_data_empty
  | .err => Except.ok mock_data_err

/-- `start_simulation` (`main.rs` lines 12–19): prints a diagnostic line
(a side effect with no observable value, not modelled) and returns the fixed
success string. -/
def start_simulation : Except String String := Except.ok "Simulation started"

/-- `stop_simulation` (`main.rs` lines 21–25): prints a diagnostic line and
returns the fixed success string. -/
def stop_simulation : Except String String := Except.ok "Simulation stopped"

/-! ## Current-directory resolution (`main.rs` lines 30–32) -/

/-- A filesystem path (Rust `PathBuf`) as a list of components;
`FsPath.parent` of the root (no components) is `none`, as for Rust's
`Path::parent` on `"/"`. -/
structure FsPath where
  components : List String

/-- Rust `Path::parent`: `none` at the root, otherwise drop the last
component. -/
def FsPath.parent (p : FsPath) : Option FsPath :=
  match p.components with
  | [] => none
  | _ => some ⟨p.components.dropLast⟩

/-- Outcome of one whole `get_world_state` command invocation, including the
`env::current_dir().unwrap().parent().unwrap()` prelude: either a panic from
one of the two `.unwrap()` calls, or a returned `Result`. -/
inductive CommandOutcome where
  | panicked
  | returned (r : Except String String)

/-- The whole `get_world_state` command: resolve the current directory
(`env::current_dir()`), take its parent, and run
`Command::new("node").arg("dist/get-world-state.js").current_dir(dir).output()`
— modelled by `runNode`, a function from the chosen working directory to the
launch result. `.unwrap()` on `Err`/`none` panics. -/
def get_world_state_cmd (current_dir : IoResult FsPath)
    (runNode : FsPath → IoResult Output) : CommandOutcome :=
  match current_dir with
  | .err => .panicked
  | .ok p =>
    match p.parent with
    | none => .panicked
    | some parent_dir => .returned (get_world_state (runNode parent_dir))

/-! ## The managed state (`main.rs` lines 8–10 and 72–84) -/

/-- `SimulationState` (`main.rs` lines 8–10): the mutex is modelled away
since all access would be sequentialized through it; `running` is the
`bool` inside `Mutex<bool>`. -/
structure SimulationState where
  running : Bool

/-- The state installed by `main` (`main.rs` line 75): `Mutex::new(false)`. -/
def init_state : SimulationState := ⟨false⟩

/-- One invocable command, as registered in `tauri::generate_handler!`
(`main.rs` lines 77–81); `get_world_state` carries the outcome of its
process launch. -/
inductive Op where
  | start
  | stop
  | getWorld (output : IoResult Output)

/-- Run one command against the managed state. No command reads or writes
`SimulationState`, so the state passes through unchanged — exactly as in the
source, where no command takes a `State` argument at all. -/
def stepOp (s : SimulationState) (op : Op) : SimulationState × Except String String :=
  match op with
  | .start => (s, start_simulation)
  | .stop => (s, stop_simulation)
  | .getWorld output => (s, get_world_state output)

/-- The managed state after a sequence of command invocations, starting from
the state installed by `main`. -/
def runOps (ops : List Op) : SimulationState :=
  ops.foldl (fun s op => (stepOp s op).1) init_state

/-! ## A JSON reader, to state the spec's "parseable as structured data".
This models the JSON grammar (the payloads at issue use objects, arrays,
non-negative integers and escape-free strings), not any code in the
repository: the gateway itself never parses. -/

inductive Json where
  | null
  | bool (b : Bool)
  | num (n : Nat)
  | str (s : String)
  | arr (elems : List Json)
  | obj (fields : List (String × Json))

/-- Skip JSON insignificant whitespace. -/
def jsonSkipWs (cs : List Char) : List Char :=
  cs.dropWhile (fun c => c == ' ' || c == '\n' || c == '\t' || c == '\r')

/-- Read a string body after the opening quote, up to the closing quote;
escape sequences are not needed by the payloads at issue and are rejected. -/
def jsonStrBody (cs : List Char) : Option (String × List Char) :=
  let body := cs.takeWhile (fun c => !(c == '"' || c == '\\'))
  match cs.dropWhile (fun c => !(c == '"' || c == '\\')) with
  | '"' :: rest => some (String.mk body, rest)
  | _ => none

/-- Read a non-empty run of decimal digits as a `Nat`. -/
def jsonDigits (cs : List Char) : Option (Nat × List Char) :=
  let ds := cs.takeWhile Char.isDigit
  if ds.isEmpty then none
  else some (ds.foldl (fun a c => a * 10 + (c.toNat - 48)) 0, cs.dropWhile Char.isDigit)

/-- Fuelled JSON value reader. After an array or object separator the
remainder is re-entered with a synthetic opening bracket, so a single
recursive function suffices (this acceptance of a trailing separator is
irrelevant to the well-formed payloads at issue). -/
def jsonParseVal : Nat → List Char → Option (Json × List Char)
  | 0, _ => none
  | fuel + 1, cs =>
    match jsonSkipWs cs with
    | [] => none
    | c :: rest =>
      if c == '"' then (jsonStrBody rest).map (fun p => (Json.str p.1, p.2))
      else if c == '[' then
        match jsonSkipWs rest with
        | ']' :: r2 => some (Json.arr [], r2)
        | cs2 =>
          match jsonParseVal fuel cs2 with
          | none => none
          | some (j, r) =>
            match jsonSkipWs r with
            | ',' :: r2 =>
              match jsonParseVal fuel ('[' :: r2) with
              | some (Json.arr js, r3) => some (Json.arr (j :: js), r3)
              | _ => none
            | ']' :: r2 => some (Json.arr [j], r2)
            | _ => none
      else if c == Char.ofNat 123 then
        match jsonSkipWs rest with
        | c2 :: r2 =>
          if c2 == Char.ofNat 125 then some (Json.obj [], r2)
          else if c2 == '"' then
            match jsonStrBody r2 with
            | none => none
            | some (key, r3) =>
              match jsonSkipWs r3 with
              | ':' :: r4 =>
                match jsonParseVal fuel r4 with
                | none => none
                | some (v, r5) =>
                  match jsonSkipWs r5 with
                  | ',' :: r6 =>
                    match jsonParseVal fuel (Char.ofNat 123 :: r6) with
                    | some (Json.obj fs, r7) => some (Json.obj ((key, v) :: fs), r7)
                    | _ => none
                  | c3 :: r6 =>
                    if c3 == Char.ofNat 125 then some (Json.obj [(key, v)], r6)
                    else none
                  | [] => none
              | _ => none
          else none
        | [] => none
      else if c.isDigit then
        (jsonDigits (c :: rest)).map (fun p => (Json.num p.1, p.2))
      else if c == 't' then
        match rest with
        | 'r' :: 'u' :: 'e' :: r => some (Json.bool true, r)
        | _ => none
      else if c == 'f' then
        match rest with
        | 'a' :: 'l' :: 's' :: 'e' :: r => some (Json.bool false, r)
        | _ => none
      else if c == 'n' then
        match rest with
        | 'u' :: 'l' :: 'l' :: r => some (Json.null, r)
        | _ => none
      else none

/-- Parse a whole string as one JSON value followed only by whitespace. -/
def jsonParse (s : String) : Option Json :=
  match jsonParseVal (2 * s.data.length + 2) s.data with
  | some (j, rest) => if (jsonSkipWs rest).isEmpty then some j else none
  | none => none

/-- Field of a JSON object (first binding of the key). -/
def Json.getField : Json → String → Option Json
  | .obj fields, key => fields.lookup key
  | _, _ => none

/-- Numeric payload of a JSON number. -/
def Json.getNum : Json → Option Nat
  | .num n => some n
  | _ => none

/-- String payload of a JSON string. -/
def Json.getStr : Json → Option String
  | .str s => some s
  | _ => none

/-- Element list of a JSON array. -/
def Json.getArr : Json → Option (List Json)
  | .arr elems => some elems
  | _ => none

/-- The numeric value of a top-level field of a serialized object. -/
def jsonNumField (s key : String) : Option Nat :=
  ((jsonParse s).bind (fun j => j.getField key)).bind Json.getNum

/-- The `name` fields, in order, of the `npcs` array of a serialized object
(`none` if any entry lacks a string `name`). -/
def jsonNpcNames (s : String) : Option (List String) :=
  (((jsonParse s).bind (fun j => j.getField "npcs")).bind Json.getArr).bind
    (List.mapM (fun j => (j.getField "name").bind Json.getStr))

example : jsonParse "[1, 2]" = some (Json.arr [Json.num 1, Json.num 2]) := rfl
example : jsonNumField "\x7b\"a\": 4, \"b\": 7\x7d" "b" = some 7 := by decide

/-! ## Shared helper lemmas about `get_world_state` -/

/-- On a launched process whose stdout is well-formed UTF-8 with a non-empty
trim, `get_world_state` returns the decoded stdout itself. -/
theorem gws_ok_verbatim (status : Int) (stdout_bytes stderr_bytes : List Nat)
    (cs : List Char) (hdec : utf8Decode stdout_bytes = some cs)
    (hne : (rustTrim (String.mk cs)).isEmpty = false) :
    get_world_state (IoResult.ok ⟨status, stdout_bytes, stderr_bytes⟩) =
      Except.ok (String.mk cs) := by
  simp only [get_world_state, string_from_utf8, hdec, Option.map_some', Option.getD_some, hne]
  rfl

/-- On a launched process whose stdout is well-formed UTF-8 with an empty
trim, `get_world_state` returns the `Ok`-branch mock literal. -/
theorem gws_ok_empty (status : Int) (stdout_bytes stderr_bytes : List Nat)
    (cs : List Char) (hdec : utf8Decode stdout_bytes = some cs)
    (hemp : (rustTrim (String.mk cs)).isEmpty = true) :
    get_world_state (IoResult.ok ⟨status, stdout_bytes, stderr_bytes⟩) =
      Except.ok mock_data_empty := by
  simp only [get_world_state, string_from_utf8, hdec, Option.map_some', Option.getD_some, hemp]
  rfl

/-- On a launched process whose stdout is not valid UTF-8, `get_world_state`
returns `"{}"` (the `unwrap_or_else` fallback, whose trim is non-empty). -/
theorem gws_ok_invalid (status : Int) (stdout_bytes stderr_bytes : List Nat)
    (hbad : utf8Decode stdout_bytes = none) :
    get_world_state (IoResult.ok ⟨status, stdout_bytes, stderr_bytes⟩) =
      Except.ok json_empty_obj := by
  simp only [get_world_state, string_from_utf8, hbad, Option.map_none', Option.getD_none]
  rfl

/-! ## Claim theorems -/

/-- C1 (counterexample): on launch failure `get_world_state` does return its
fallback literal, but that string is not byte-for-byte the payload displayed
in §6 of the specification — the source literal carries 16/20-space
indentation and single spaces after commas, the §6 rendering 2/4-space
indentation and aligned columns. -/
theorem get_world_state_err_not_spec6 :
    get_world_state IoResult.err = Except.ok mock_data_err ∧
    mock_data_err ≠ spec6_fallback :=
  ⟨rfl, by decide⟩

/-- C1 (amended): on launch failure `get_world_state` returns, byte for
byte, the launch-failure mock literal of the source (which matches the §6
payload in content, though not in whitespace), and that string parses as
structured data with `currentDay = 1`, `currentHour = 12` and an `npcs`
sequence of exactly Marcus, Sarah, Emma in that order. -/
theorem get_world_state_err_fallback :
    get_world_state IoResult.err = Except.ok mock_data_err ∧
    (jsonParse mock_data_err).isSome = true ∧
    jsonNumField mock_data_err "currentDay" = some 1 ∧
    jsonNumField mock_data_err "currentHour" = some 12 ∧
    jsonNpcNames mock_data_err = some ["Marcus", "Sarah", "Emma"] :=
  ⟨rfl, by decide, by decide, by decide, by decide⟩

/-- C2 (counterexample): a launched process can write non-empty stdout bytes
(here the single byte `0xFF`, which no amount of trimming empties) that are
not returned verbatim: they are not valid UTF-8, so `get_world_state`
returns the two-byte string `"{}"` instead. -/
theorem get_world_state_invalid_utf8_not_verbatim :
    get_world_state (IoResult.ok ⟨0, [255], []⟩) = Except.ok json_empty_obj ∧
    ([255] : List Nat) ≠ [] ∧
    utf8EncodeChars json_empty_obj.data ≠ [255] :=
  ⟨rfl, by decide, by decide⟩

/-- C2 (amended): whenever the launched process writes stdout bytes that are
valid UTF-8 and non-empty after trimming, `get_world_state` returns exactly
the decoded stdout, and re-encoding the returned string gives back the
stdout bytes unchanged — byte-identical to what the process wrote. -/
theorem get_world_state_verbatim_utf8 (status : Int)
    (stdout_bytes stderr_bytes : List Nat) (cs : List Char)
    (hdec : utf8Decode stdout_bytes = some cs)
    (hne : (rustTrim (String.mk cs)).isEmpty = false) :
    get_world_state (IoResult.ok ⟨status, stdout_bytes, stderr_bytes⟩) =
      Except.ok (String.mk cs) ∧
    utf8EncodeChars (String.mk cs).data = stdout_bytes :=
  ⟨gws_ok_verbatim status stdout_bytes stderr_bytes cs hdec hne,
    utf8Decode_encode stdout_bytes cs hdec⟩

/-- Witness for C2 at the concrete stdout `"hi"` (bytes `[104, 105]`). -/
theorem get_world_state_verbatim_utf8_witness :
    utf8Decode [104, 105] = some (String.data "hi") ∧
    (rustTrim (String.mk (String.data "hi"))).isEmpty = false ∧
    (get_world_state (IoResult.ok ⟨0, [104, 105], []⟩) =
        Except.ok (String.mk (String.data "hi")) ∧
      utf8EncodeChars (String.mk (String.data "hi")).data = [104, 105]) :=
  ⟨by decide, by decide,
    get_world_state_verbatim_utf8 0 [104, 105] [] (String.data "hi") (by decide) (by decide)⟩

/-- C3 (counterexample): on empty stdout `get_world_state` returns the
`Ok`-branch mock literal, which is not equal to the string returned in the
launch-failure case — the two source literals differ in indentation
(20/24 spaces against 16/20). -/
theorem get_world_state_empty_ne_err_fallback :
    get_world_state (IoResult.ok ⟨0, [], []⟩) = Except.ok mock_data_empty ∧
    get_world_state IoResult.err = Except.ok mock_data_err ∧
    mock_data_empty ≠ mock_data_err :=
  ⟨rfl, rfl, by decide⟩

/-- C3 (amended): whenever the launched process writes stdout that decodes
to a string that is empty after trimming, `get_world_state` returns the
`Ok`-branch fallback literal; that literal carries the same parsed content
(day, hour, NPC names) as the launch-failure literal but is not the same
string. -/
theorem get_world_state_empty_fallback (status : Int)
    (stdout_bytes stderr_bytes : List Nat) (cs : List Char)
    (hdec : utf8Decode stdout_bytes = some cs)
    (hemp : (rustTrim (String.mk cs)).isEmpty = true) :
    get_world_state (IoResult.ok ⟨status, stdout_bytes, stderr_bytes⟩) =
      Except.ok mock_data_empty ∧
    jsonNumField mock_data_empty "currentDay" = jsonNumField mock_data_err "currentDay" ∧
    jsonNumField mock_data_empty "currentHour" = jsonNumField mock_data_err "currentHour" ∧
    jsonNpcNames mock_data_empty = jsonNpcNames mock_data_err :=
  ⟨gws_ok_empty status stdout_bytes stderr_bytes cs hdec hemp,
    by decide, by decide, by decide⟩

/-- Witness for C3 at the concrete stdout `" \n"` (bytes `[32, 10]`). -/
theorem get_world_state_empty_fallback_witness :
    utf8Decode [32, 10] = some (String.data " \n") ∧
    (rustTrim (String.mk (String.data " \n"))).isEmpty = true ∧
    get_world_state (IoResult.ok ⟨0, [32, 10], []⟩) = Except.ok mock_data_empty :=
  ⟨by decide, by decide,
    (get_world_state_empty_fallback 0 [32, 10] [] (String.data " \n")
      (by decide) (by decide)).1⟩

/-- C4: every command, on every launch outcome, returns on the success side
of its `Result`; the error channel is never populated. -/
theorem commands_always_ok (s : SimulationState) (op : Op) :
    (stepOp s op).2.isOk = true := by
  cases op with
  | start => rfl
  | stop => rfl
  | getWorld output =>
    cases output with
    | err => rfl
    | ok result =>
      show (get_world_state (IoResult.ok result)).isOk = true
      simp only [get_world_state]
      split <;> rfl

/-- C5: when the launched process writes stdout bytes that are not valid
UTF-8, `get_world_state` returns the two-character string `"{}"` as a
success — a string distinct from both mock literals — and those stdout
bytes are themselves not the encoding of `"{}"`, so nothing verbatim is
returned either. -/
theorem get_world_state_invalid_utf8_empty_obj (status : Int)
    (stdout_bytes stderr_bytes : List Nat)
    (hbad : utf8Decode stdout_bytes = none) :
    get_world_state (IoResult.ok ⟨status, stdout_bytes, stderr_bytes⟩) =
      Except.ok json_empty_obj ∧
    json_empty_obj.data.length = 2 ∧
    json_empty_obj ≠ mock_data_empty ∧
    json_empty_obj ≠ mock_data_err ∧
    stdout_bytes ≠ utf8EncodeChars json_empty_obj.data := by
  refine ⟨gws_ok_invalid status stdout_bytes stderr_bytes hbad,
    by decide, by decide, by decide, ?_⟩
  intro heq
  rw [heq, show utf8EncodeChars json_empty_obj.data =
    utf8EncodeChars (String.data json_empty_obj) from rfl] at hbad
  rw [show (utf8EncodeChars (String.data json_empty_obj)) =
    utf8EncodeChars json_empty_obj.data from rfl, utf8Decode_of_encode] at hbad
  exact Option.noConfusion hbad

/-- Witness for C5 at the concrete stdout byte `0xFE`. -/
theorem get_world_state_invalid_utf8_empty_obj_witness :
    utf8Decode [254] = none ∧
    get_world_state (IoResult.ok ⟨0, [254], []⟩) = Except.ok json_empty_obj :=
  ⟨by decide, (get_world_state_invalid_utf8_empty_obj 0 [254] [] (by decide)).1⟩

/-- C6: if the current directory cannot be determined, or it has no parent
(the filesystem root), the `get_world_state` command panics on one of its
two `.unwrap()` calls and returns nothing at all. -/
theorem get_world_state_cmd_panics (current_dir : IoResult FsPath)
    (runNode : FsPath → IoResult Output)
    (h : current_dir = IoResult.err ∨
      ∃ p, current_dir = IoResult.ok p ∧ p.parent = none) :
    get_world_state_cmd current_dir runNode = CommandOutcome.panicked := by
  rcases h with rfl | ⟨p, rfl, hp⟩
  · rfl
  · simp only [get_world_state_cmd, hp]

/-- Witness for C6: the current-directory lookup fails. -/
theorem get_world_state_cmd_panics_witness :
    get_world_state_cmd IoResult.err (fun _ => IoResult.err) = CommandOutcome.panicked :=
  get_world_state_cmd_panics IoResult.err (fun _ => IoResult.err) (Or.inl rfl)

/-- C7 (counterexample): with a nonzero exit status and the non-empty stdout
byte `0xFE`, the returned string is `"{}"`, not the stdout verbatim — the
invalid-UTF-8 replacement applies regardless of status, so "non-empty output
is still returned verbatim" fails as a universal statement. -/
theorem get_world_state_nonzero_invalid_utf8 :
    (1 : Int) ≠ 0 ∧
    get_world_state (IoResult.ok ⟨1, [0xFE, 0xFF], []⟩) = Except.ok json_empty_obj ∧
    utf8EncodeChars json_empty_obj.data ≠ [0xFE, 0xFF] :=
  ⟨by decide, rfl, by decide⟩

/-- C7 (amended): `get_world_state` never examines the exit status — the
result with any status equals the result with status `0` — and on a nonzero
exit status with valid-UTF-8 stdout whose trim is non-empty, that stdout is
still returned verbatim (byte-identical); the fallback is not substituted. -/
theorem get_world_state_ignores_exit_status (status : Int)
    (stdout_bytes stderr_bytes : List Nat) (cs : List Char)
    (hstatus : status ≠ 0)
    (hdec : utf8Decode stdout_bytes = some cs)
    (hne : (rustTrim (String.mk cs)).isEmpty = false) :
    get_world_state (IoResult.ok ⟨status, stdout_bytes, stderr_bytes⟩) =
      Except.ok (String.mk cs) ∧
    utf8EncodeChars (String.mk cs).data = stdout_bytes ∧
    get_world_state (IoResult.ok ⟨status, stdout_bytes, stderr_bytes⟩) =
      get_world_state (IoResult.ok ⟨0, stdout_bytes, stderr_bytes⟩) :=
  ⟨gws_ok_verbatim status stdout_bytes stderr_bytes cs hdec hne,
    utf8Decode_encode stdout_bytes cs hdec,
    (gws_ok_verbatim status stdout_bytes stderr_bytes cs hdec hne).trans
      (gws_ok_verbatim 0 stdout_bytes stderr_bytes cs hdec hne).symm⟩

/-- Witness for C7 at exit status `1` and the concrete stdout `"ok"`
(bytes `[111, 107]`). -/
theorem get_world_state_ignores_exit_status_witness :
    (1 : Int) ≠ 0 ∧
    utf8Decode [111, 107] = some (String.data "ok") ∧
    (rustTrim (String.mk (String.data "ok"))).isEmpty = false ∧
    (get_world_state (IoResult.ok ⟨1, [111, 107], []⟩) =
        Except.ok (String.mk (String.data "ok")) ∧
      utf8EncodeChars (String.mk (String.data "ok")).data = [111, 107] ∧
      get_world_state (IoResult.ok ⟨1, [111, 107], []⟩) =
        get_world_state (IoResult.ok ⟨0, [111, 107], []⟩)) :=
  ⟨by decide, by decide, by decide,
    get_world_state_ignores_exit_status 1 [111, 107] [] (String.data "ok")
      (by decide) (by decide) (by decide)⟩

/-- C8: from the state installed by `main` (no preceding calls),
`start_simulation` returns exactly `Ok("Simulation started")` and
`stop_simulation` returns exactly `Ok("Simulation stopped")`. -/
theorem start_stop_fixed_messages :
    (stepOp init_state Op.start).2 = Except.ok "Simulation started" ∧
    (stepOp init_state Op.stop).2 = Except.ok "Simulation stopped" :=
  ⟨rfl, rfl⟩

/-- C9: `start_simulation` and `stop_simulation` are idempotent — from any
state, calling either twice in a row yields the same success result both
times. -/
theorem start_stop_idempotent (s : SimulationState) :
    ((stepOp s Op.start).2 = (stepOp (stepOp s Op.start).1 Op.start).2 ∧
      (stepOp s Op.start).2.isOk = true) ∧
    ((stepOp s Op.stop).2 = (stepOp (stepOp s Op.stop).1 Op.stop).2 ∧
      (stepOp s Op.stop).2.isOk = true) :=
  ⟨⟨rfl, rfl⟩, ⟨rfl, rfl⟩⟩

/-- C10: the running flag is installed as `false` by `main`, and since no
command reads or writes the managed state, `running = false` is preserved by
every sequence of command invocations. -/
theorem running_flag_never_written :
    init_state.running = false ∧ ∀ ops : List Op, (runOps ops).running = false := by
  refine ⟨rfl, ?_⟩
  intro ops
  have key : ∀ (s : SimulationState) (l : List Op),
      l.foldl (fun s op => (stepOp s op).1) s = s := by
    intro s l
    induction l generalizing s with
    | nil => rfl
    | cons op l ih =>
      rw [List.foldl_cons, show (stepOp s op).1 = s from by cases op <;> rfl]
      exact ih s
  rw [runOps, key]
  rfl
